import Mathlib

/-!
Shallow embedding of the `csv2parquet` repository (src/src/lib.rs and
src/src/main.rs). The repository is a thin wrapper around an external
dataframe library (polars): CSV reading, Parquet writing and compression
level validation are external. Those external calls are modelled as
oracle functions collected in a `World` structure, and every external
call made by the embedded code is recorded in an event trace, so that
ordering properties ("the output file is created only after the CSV was
read successfully") are statable.
-/

deriving instance DecidableEq for Except

namespace CsvToParquet

/-- Model of a file-system path: an absolute/relative flag plus the list of
normalized components, mirroring the components Rust's `Path` iterates
(`Normal` and `ParentDir`; `RootDir`/`Prefix` are represented by the
`absolute` flag, `CurDir` is normalized away by Rust itself). -/
inductive Component
  | normal (s : String)
  | parentDir
deriving DecidableEq, Repr

/-- A path: `absolute` says whether it starts with a root, `comps` are the
components in order. -/
structure Path where
  absolute : Bool
  comps : List Component
deriving DecidableEq, Repr

/-- Rust `Path::file_name`: the final component when it is a normal
component, `None` when the path is empty, a bare root, or ends in `..`. -/
def Path.fileName (p : Path) : Option String :=
  match p.comps.getLast? with
  | some (Component.normal s) => some s
  | _ => none

/-- Rust `Path::parent`: drops the final component; `None` for an empty
path or a bare root. -/
def Path.parent (p : Path) : Option Path :=
  match p.comps with
  | [] => none
  | _ :: _ => some ⟨p.absolute, p.comps.dropLast⟩

/-- Rust `Path::join` restricted to the use in this repository: the joined
path is always a single relative normal component (a file name). -/
def Path.join (p : Path) (filename : String) : Path :=
  ⟨p.absolute, p.comps ++ [Component.normal filename]⟩

/-- Rust's `split_file_at_dot` helper: splits a character list at the LAST
dot, returning the parts before and after it, or `none` when there is no
dot. The recursion prefers a dot found later in the list. -/
def splitAtLastDot : List Char → Option (List Char × List Char)
  | [] => none
  | c :: rest =>
    match splitAtLastDot rest with
    | some (pre, post) => some (c :: pre, post)
    | none => if c = '.' then some ([], rest) else none

/-- Rust `Path::file_stem` on a file name: the portion before the last dot,
where a dot in the very first position does not count (so `.foo` is its own
stem), exactly as Rust searches `slice[1..]` for the last dot. -/
def fileStemStr (s : String) : String :=
  match s.data with
  | [] => s
  | c0 :: rest =>
    match splitAtLastDot rest with
    | some (pre, _) => ⟨c0 :: pre⟩
    | none => s

/-- Rust `Path::extension` on a file name: the portion after the last dot,
ignoring a dot in the very first position. -/
def extensionStr (s : String) : Option String :=
  match s.data with
  | [] => none
  | _ :: rest =>
    match splitAtLastDot rest with
    | some (_, post) => some ⟨post⟩
    | none => none

/-- Model of a polars `DataFrame`: its row count (`height`) plus an
abstract tag standing for the remaining content of the frame. -/
structure DataFrame where
  height : Nat
  tag : Nat
deriving DecidableEq, Repr

/-- The `ConversionError` enum of src/src/lib.rs. -/
inductive ConversionError
  | csvRead (s : String)
  | parquetWrite (s : String)
  | invalidDelimiter
  | invalidCompressionLevel (s : String)
  | ioErr (s : String)
  | polars (s : String)
deriving DecidableEq, Repr

/-- Decidable `isOk` test for `Except` results. -/
def exceptIsOk {ε α : Type} : Except ε α → Bool
  | .ok _ => true
  | .error _ => false

/-- Opaque handle for a gzip compression level validated by the external
library's `GzipLevel::try_new`. -/
structure GzipLevel where
  val : Nat
deriving DecidableEq, Repr

/-- Opaque handle for a zstd compression level validated by the external
library's `ZstdLevel::try_new`. -/
structure ZstdLevel where
  val : Int
deriving DecidableEq, Repr

/-- Opaque handle for a brotli compression level validated by the external
library's `BrotliLevel::try_new`. -/
structure BrotliLevel where
  val : Nat
deriving DecidableEq, Repr

/-- The level constructors (`try_new`) of the external library; they are
not implemented in this repository, so they are oracle parameters. -/
structure LevelOracles where
  gzip_try_new : Nat → Except String GzipLevel
  zstd_try_new : Int → Except String ZstdLevel
  brotli_try_new : Nat → Except String BrotliLevel

/-- The `Compression` enum of src/src/lib.rs. Gzip levels are `u8`
(modelled as `Nat`), zstd levels `i32` (modelled as `Int`), brotli levels
`u32` (modelled as `Nat`). -/
inductive Compression
  | uncompressed
  | snappy
  | gzip (level : Option Nat)
  | lz4
  | zstd (level : Option Int)
  | brotli (level : Option Nat)
deriving DecidableEq, Repr

/-- Polars' `ParquetCompression` type, as used by src/src/lib.rs. -/
inductive ParquetCompression
  | uncompressed
  | snappy
  | gzip (level : Option GzipLevel)
  | lz4Raw
  | zstd (level : Option ZstdLevel)
  | brotli (level : Option BrotliLevel)
deriving DecidableEq, Repr

/-- The `Compression::to_parquet_compression` method of src/src/lib.rs.
The external `try_new` constructors are passed in as `lv`. -/
def Compression.to_parquet_compression (self : Compression) (lv : LevelOracles) :
    Except ConversionError ParquetCompression :=
  match self with
  | .uncompressed => .ok .uncompressed
  | .snappy => .ok .snappy
  | .gzip level =>
    match level with
    | some l =>
      match lv.gzip_try_new l with
      | .ok gl => .ok (.gzip (some gl))
      | .error e => .error (.invalidCompressionLevel e)
    | none => .ok (.gzip none)
  | .lz4 => .ok .lz4Raw
  | .zstd level =>
    match level with
    | some l =>
      match lv.zstd_try_new l with
      | .ok zl => .ok (.zstd (some zl))
      | .error e => .error (.invalidCompressionLevel e)
    | none => .ok (.zstd none)
  | .brotli level =>
    match level with
    | some l =>
      match lv.brotli_try_new l with
      | .ok bl => .ok (.brotli (some bl))
      | .error e => .error (.invalidCompressionLevel e)
    | none => .ok (.brotli none)

/-- The `ConversionOptions` struct of src/src/lib.rs. -/
structure ConversionOptions where
  has_header : Bool
  delimiter : Nat
  quote_char : Option Nat
  infer_schema_rows : Option Nat
  compression : Compression
  row_group_size : Option Nat
  n_threads : Option Nat
  low_memory : Bool
  statistics : Bool
  parallel : Bool
deriving DecidableEq, Repr

/-- The `Default` impl for `ConversionOptions` in src/src/lib.rs. -/
def ConversionOptions.defaultOptions : ConversionOptions :=
  { has_header := true
    delimiter := 44
    quote_char := some 34
    infer_schema_rows := some 1000
    compression := Compression.zstd none
    row_group_size := some 500000
    n_threads := none
    low_memory := false
    statistics := true
    parallel := true }

/-- The `ConversionStats` struct of src/src/lib.rs, without its wall-clock
`duration` field (real time is outside the embedding). -/
structure ConversionStats where
  rows_processed : Nat
  output_size : Nat
deriving DecidableEq, Repr

/-- The parse-option subset of polars' `CsvParseOptions` touched by
src/src/lib.rs (separator and quote character); the other fields are never
read or written by this repository. -/
structure CsvParseOptions where
  separator : Nat
  quote_char : Option Nat
deriving DecidableEq, Repr

/-- Polars' default `CsvParseOptions` (separator `b','`, quote `b'"'`). -/
def CsvParseOptions.defaultOptions : CsvParseOptions :=
  { separator := 44, quote_char := some 34 }

/-- The subset of polars' `CsvReadOptions` touched by src/src/lib.rs. -/
structure CsvReadOptions where
  has_header : Bool
  infer_schema_length : Option Nat
  parse_options : CsvParseOptions
  n_threads : Option Nat
  low_memory : Bool
deriving DecidableEq, Repr

/-- Polars' default `CsvReadOptions` restricted to the modelled fields
(header on, schema inferred from 100 rows, automatic thread count, low
memory off). -/
def CsvReadOptions.defaultOptions : CsvReadOptions :=
  { has_header := true
    infer_schema_length := some 100
    parse_options := CsvParseOptions.defaultOptions
    n_threads := none
    low_memory := false }

/-- Polars builder `CsvReadOptions::with_has_header`. -/
def CsvReadOptions.with_has_header (o : CsvReadOptions) (b : Bool) : CsvReadOptions :=
  { o with has_header := b }

/-- Polars builder `CsvReadOptions::with_infer_schema_length`. -/
def CsvReadOptions.with_infer_schema_length (o : CsvReadOptions) (n : Option Nat) : CsvReadOptions :=
  { o with infer_schema_length := n }

/-- Polars builder `CsvReadOptions::map_parse_options`. -/
def CsvReadOptions.map_parse_options (o : CsvReadOptions)
    (f : CsvParseOptions → CsvParseOptions) : CsvReadOptions :=
  { o with parse_options := f o.parse_options }

/-- Polars builder `CsvReadOptions::with_n_threads`. -/
def CsvReadOptions.with_n_threads (o : CsvReadOptions) (n : Option Nat) : CsvReadOptions :=
  { o with n_threads := n }

/-- Polars builder `CsvReadOptions::with_low_memory`. -/
def CsvReadOptions.with_low_memory (o : CsvReadOptions) (b : Bool) : CsvReadOptions :=
  { o with low_memory := b }

/-- Polars builder `CsvParseOptions::with_separator`. -/
def CsvParseOptions.with_separator (o : CsvParseOptions) (b : Nat) : CsvParseOptions :=
  { o with separator := b }

/-- Polars builder `CsvParseOptions::with_quote_char`. -/
def CsvParseOptions.with_quote_char (o : CsvParseOptions) (q : Option Nat) : CsvParseOptions :=
  { o with quote_char := q }

/-- Handle returned by Rust's `File::create`. -/
structure FileHandle where
  id : Nat
deriving DecidableEq, Repr

/-- Polars' `StatisticsOptions`. -/
structure StatisticsOptions where
  min_value : Bool
  max_value : Bool
  distinct_count : Bool
  null_count : Bool
deriving DecidableEq, Repr

/-- Polars `StatisticsOptions::full` (every statistic enabled). -/
def StatisticsOptions.full : StatisticsOptions :=
  ⟨true, true, true, true⟩

/-- Polars `StatisticsOptions::empty` (every statistic disabled). -/
def StatisticsOptions.empty : StatisticsOptions :=
  ⟨false, false, false, false⟩

/-- The configuration state of a polars `ParquetWriter`. -/
structure ParquetWriter where
  file : FileHandle
  compression : ParquetCompression
  statistics : StatisticsOptions
  parallel : Bool
  row_group_size : Option Nat
deriving DecidableEq, Repr

/-- Polars `ParquetWriter::new`: a writer over the given file with the
library's default settings (zstd compression, default statistics,
parallel writing on, no explicit row-group size). -/
def ParquetWriter.new (f : FileHandle) : ParquetWriter :=
  { file := f
    compression := ParquetCompression.zstd none
    statistics := ⟨true, true, false, true⟩
    parallel := true
    row_group_size := none }

/-- Polars builder `ParquetWriter::with_compression`. -/
def ParquetWriter.with_compression (wr : ParquetWriter) (c : ParquetCompression) : ParquetWriter :=
  { wr with compression := c }

/-- Polars builder `ParquetWriter::with_statistics`. -/
def ParquetWriter.with_statistics (wr : ParquetWriter) (s : StatisticsOptions) : ParquetWriter :=
  { wr with statistics := s }

/-- Polars builder `ParquetWriter::set_parallel`. -/
def ParquetWriter.set_parallel (wr : ParquetWriter) (b : Bool) : ParquetWriter :=
  { wr with parallel := b }

/-- Polars builder `ParquetWriter::with_row_group_size`. -/
def ParquetWriter.with_row_group_size (wr : ParquetWriter) (n : Option Nat) : ParquetWriter :=
  { wr with row_group_size := n }

/-- Events recording every external call (and every printed line) the
embedded code performs, in order. -/
inductive Event
  | csvReadAttempt (opts : CsvReadOptions) (path : Path)
  | fileCreateEv (path : Path)
  | parquetFinishEv (writer : ParquetWriter) (df : DataFrame)
  | printSuccess (input output : Path) (rows bytes : Nat)
  | printFailure (input : Path) (err : ConversionError)
  | printSummary (successful failed total : Nat)
deriving DecidableEq, Repr

/-- The behaviour of the external world: polars' CSV reader construction
and run, `File::create`, the compression level constructors, and the
Parquet writer's `finish`. All of these live outside this repository. -/
structure World where
  tryIntoReader : CsvReadOptions → Path → Except String Unit
  readerFinish : CsvReadOptions → Path → Except String DataFrame
  fileCreate : Path → Except String FileHandle
  levels : LevelOracles
  parquetFinish : ParquetWriter → DataFrame → Except String Nat

/-- The pure builder chain of `read_csv` (src/src/lib.rs lines 161-178):
the `CsvReadOptions` value handed to the external reader. -/
def read_csv_options (options : ConversionOptions) : CsvReadOptions :=
  let csv_options :=
    ((CsvReadOptions.defaultOptions.with_has_header options.has_header).with_infer_schema_length
        options.infer_schema_rows).map_parse_options (fun parse_opts =>
      let opts := parse_opts.with_separator options.delimiter
      let opts :=
        match options.quote_char with
        | some quote => opts.with_quote_char (some quote)
        | none => opts.with_quote_char none
      opts)
  let csv_options :=
    match options.n_threads with
    | some threads => csv_options.with_n_threads (some threads)
    | none => csv_options
  csv_options.with_low_memory options.low_memory

/-- The `read_csv` function of src/src/lib.rs: builds the reader options,
constructs the reader over the input path and runs it; both failure points
are mapped to `ConversionError::CsvRead`. -/
def read_csv (w : World) (path : Path) (options : ConversionOptions) :
    Except ConversionError DataFrame × List Event :=
  let csv_options := read_csv_options options
  match w.tryIntoReader csv_options path with
  | .error e => (.error (.csvRead e), [.csvReadAttempt csv_options path])
  | .ok _ =>
    match w.readerFinish csv_options path with
    | .error e => (.error (.csvRead e), [.csvReadAttempt csv_options path])
    | .ok df => (.ok df, [.csvReadAttempt csv_options path])

/-- The `write_parquet` function of src/src/lib.rs: creates the output
file, translates the compression, configures the writer and runs it. -/
def write_parquet (w : World) (df : DataFrame) (path : Path) (options : ConversionOptions) :
    Except ConversionError Nat × List Event :=
  match w.fileCreate path with
  | .error e => (.error (.ioErr e), [.fileCreateEv path])
  | .ok file =>
    match options.compression.to_parquet_compression w.levels with
    | .error ce => (.error ce, [.fileCreateEv path])
    | .ok compression =>
      let statistics :=
        if options.statistics then StatisticsOptions.full else StatisticsOptions.empty
      let writer :=
        (((ParquetWriter.new file).with_compression compression).with_statistics
            statistics).set_parallel options.parallel
      let writer :=
        match options.row_group_size with
        | some row_group_size => writer.with_row_group_size (some row_group_size)
        | none => writer
      match w.parquetFinish writer df with
      | .error e => (.error (.parquetWrite e), [.fileCreateEv path, .parquetFinishEv writer df])
      | .ok bytes_written => (.ok bytes_written, [.fileCreateEv path, .parquetFinishEv writer df])

/-- The `convert_csv_to_parquet` function of src/src/lib.rs: read the CSV,
remember its height, write the Parquet file, return the stats. -/
def convert_csv_to_parquet (w : World) (input_path output_path : Path)
    (options : ConversionOptions) : Except ConversionError ConversionStats × List Event :=
  match read_csv w input_path options with
  | (.error e, tr) => (.error e, tr)
  | (.ok df, tr) =>
    let rows_processed := df.height
    match write_parquet w df output_path options with
    | (.error e, tr2) => (.error e, tr ++ tr2)
    | (.ok output_size, tr2) =>
      (.ok { rows_processed := rows_processed, output_size := output_size }, tr ++ tr2)

/-- UTF-8 encoding of a single character (the standard 1-4 byte scheme),
used to model Rust's byte-level view of `&str`. -/
def utf8CharBytes (c : Char) : List Nat :=
  let n := c.toNat
  if n < 128 then [n]
  else if n < 2048 then [192 + n / 64, 128 + n % 64]
  else if n < 65536 then [224 + n / 4096, 128 + n / 64 % 64, 128 + n % 64]
  else [240 + n / 262144, 128 + n / 4096 % 64, 128 + n / 64 % 64, 128 + n % 64]

/-- The UTF-8 bytes of a string, as Rust's `str::as_bytes` exposes them. -/
def utf8Bytes (s : String) : List Nat :=
  (s.data.map utf8CharBytes).flatten

/-- Rust `str::len`: the UTF-8 byte length of a string. -/
def utf8ByteLen (s : String) : Nat :=
  (utf8Bytes s).length

/-- Rust `s.as_bytes()[0]` (with default 0 for the empty string, which the
source never hits because it only indexes length-1 strings). -/
def headByteD (s : String) : Nat :=
  (utf8Bytes s).headD 0

/-- ASCII lowercasing of one character, modelling Rust's `to_lowercase` on
the inputs this program compares (the full Unicode mapping differs from the
ASCII one only on characters that can never lowercase to `none`, `"` or
`'`). -/
def asciiToLower (c : Char) : Char :=
  if 65 ≤ c.toNat ∧ c.toNat ≤ 90 then Char.ofNat (c.toNat + 32) else c

/-- Characterwise lowercasing of a string, modelling Rust's
`str::to_lowercase`. -/
def toLowerString (s : String) : String :=
  ⟨s.data.map asciiToLower⟩

/-- The `parse_delimiter` function of src/src/main.rs. -/
def parse_delimiter (s : String) : Except String Nat :=
  if s = "," then .ok 44
  else if s = ";" then .ok 59
  else if s = "|" then .ok 124
  else if s = "\\t" ∨ s = "\t" then .ok 9
  else if utf8ByteLen s = 1 then .ok (headByteD s)
  else .error "Delimiter must be a single character"

/-- The `parse_quote_char` function of src/src/main.rs: matches on the
lowercased string, with the single-byte fallback guard checked on the
original string. -/
def parse_quote_char (s : String) : Except String (Option Nat) :=
  let ls := toLowerString s
  if ls = "none" ∨ ls = "" then .ok none
  else if ls = "\"" then .ok (some 34)
  else if ls = "\x27" then .ok (some 39)
  else if utf8ByteLen s = 1 then .ok (some (headByteD s))
  else .error "Quote character must be a single character or \x27none\x27"

/-- The `CompressionType` CLI enum of src/src/main.rs. -/
inductive CompressionType
  | uncompressed
  | snappy
  | gzip
  | lz4
  | zstd
  | brotli
deriving DecidableEq, Repr

/-- Rust `l as u8` on a `u32` value: truncation modulo 256. -/
def u32AsU8 (l : Nat) : Nat :=
  l % 256

/-- Rust `l as i32` on a `u32` value: two's-complement reinterpretation. -/
def u32AsI32 (l : Nat) : Int :=
  if l < 2147483648 then (l : Int) else (l : Int) - 4294967296

/-- The `CompressionType::to_compression` method of src/src/main.rs. -/
def CompressionType.to_compression (self : CompressionType) (level : Option Nat) : Compression :=
  match self with
  | .uncompressed => Compression.uncompressed
  | .snappy => Compression.snappy
  | .gzip => Compression.gzip (level.map u32AsU8)
  | .lz4 => Compression.lz4
  | .zstd => Compression.zstd (level.map u32AsI32)
  | .brotli => Compression.brotli level

/-- The parsed `Cli` struct of src/src/main.rs (after clap has parsed the
command line; clap itself is external). -/
structure Cli where
  input_files : List Path
  output_dir : Option Path
  compression : CompressionType
  compression_level : Option Nat
  has_header : Bool
  delimiter : String
  quote_char : String
  infer_schema_rows : Nat
  row_group_size : Nat
  threads : Nat
  low_memory : Bool
  no_statistics : Bool
  no_parallel : Bool

/-- Model of anyhow's `.context(ctx)`: prefix the error with the context
string. -/
def withContext {α : Type} (ctx : String) : Except String α → Except String α
  | .ok a => .ok a
  | .error e => .error (ctx ++ ": " ++ e)

/-- The `build_conversion_options` function of src/src/main.rs. -/
def build_conversion_options (cli : Cli) : Except String ConversionOptions :=
  match withContext "Invalid delimiter" (parse_delimiter cli.delimiter) with
  | .error e => .error e
  | .ok delimiter =>
    match withContext "Invalid quote character" (parse_quote_char cli.quote_char) with
    | .error e => .error e
    | .ok quote_char =>
      let compression := cli.compression.to_compression cli.compression_level
      let infer_schema_rows :=
        if cli.infer_schema_rows = 0 then none else some cli.infer_schema_rows
      let n_threads :=
        if cli.threads = 0 then none else some cli.threads
      .ok { has_header := cli.has_header
            delimiter := delimiter
            quote_char := quote_char
            infer_schema_rows := infer_schema_rows
            compression := compression
            row_group_size := some cli.row_group_size
            n_threads := n_threads
            low_memory := cli.low_memory
            statistics := !cli.no_statistics
            parallel := !cli.no_parallel }

/-- The `determine_output_path` function of src/src/main.rs. In this
embedding every string is valid UTF-8, so the `to_str` failure branch of
the source cannot occur and the only error is a missing file stem. -/
def determine_output_path (input : Path) (output_dir : Option Path) : Except String Path :=
  match input.fileName with
  | none => .error "Invalid input filename"
  | some name =>
    let input_stem := fileStemStr name
    let output_filename := input_stem ++ ".parquet"
    let output_path :=
      match output_dir with
      | some dir => dir.join output_filename
      | none =>
        match input.parent with
        | some parent => parent.join output_filename
        | none => Path.mk false [Component.normal output_filename]
    .ok output_path

/-- The aggregation counters of `main` (src/src/main.rs lines 93-95). -/
structure LoopState where
  total : Nat
  successful : Nat
  failed : Nat
deriving DecidableEq, Repr

/-- The per-file loop of `main` (src/src/main.rs lines 98-122). A failure
of `determine_output_path` propagates out of `main` via `?` (aborting the
loop); a failure of the conversion itself is counted and the loop
continues. -/
def processFiles (w : World) (opts : ConversionOptions) (odir : Option Path) :
    List Path → LoopState → Except String LoopState × List Event
  | [], st => (.ok st, [])
  | f :: rest, st =>
    match determine_output_path f odir with
    | .error msg => (.error msg, [])
    | .ok output_path =>
      match convert_csv_to_parquet w f output_path opts with
      | (.ok stats, tr) =>
        let res := processFiles w opts odir rest
          { total := st.total + 1, successful := st.successful + 1, failed := st.failed }
        (res.1, tr ++ [.printSuccess f output_path stats.rows_processed stats.output_size] ++ res.2)
      | (.error e, tr) =>
        let res := processFiles w opts odir rest
          { total := st.total + 1, successful := st.successful, failed := st.failed + 1 }
        (res.1, tr ++ [.printFailure f e] ++ res.2)

/-- The possible outcomes of `main`: an error propagated by `?` (anyhow
prints it and the process exits nonzero), `std::process::exit(1)`, or
`Ok(())` (exit status 0). -/
inductive MainResult
  | earlyErr (msg : String)
  | exit1
  | okUnit
deriving DecidableEq, Repr

/-- The `main` function of src/src/main.rs after clap parsing: build the
options, loop over the input files, print a summary when more than one
file was given, and exit 1 when any conversion failed. -/
def mainModel (w : World) (cli : Cli) : MainResult × List Event :=
  match build_conversion_options cli with
  | .error msg => (.earlyErr msg, [])
  | .ok options =>
    match processFiles w options cli.output_dir cli.input_files ⟨0, 0, 0⟩ with
    | (.error msg, tr) => (.earlyErr msg, tr)
    | (.ok st, tr) =>
      let tr2 :=
        if 1 < st.total then tr ++ [.printSummary st.successful st.failed st.total] else tr
      if 0 < st.failed then (.exit1, tr2) else (.okUnit, tr2)

/-- The input paths of the conversion attempts recorded in a trace (each
conversion attempt starts with exactly one `csvReadAttempt` event). -/
def convertAttempts (tr : List Event) : List Path :=
  tr.filterMap (fun e =>
    match e with
    | .csvReadAttempt _ p => some p
    | _ => none)

/-- Whether the conversion of one input file succeeds in world `w` (its
output path is determined and the conversion returns `Ok`). -/
def convOk (w : World) (opts : ConversionOptions) (odir : Option Path) (f : Path) : Bool :=
  match determine_output_path f odir with
  | .ok p => exceptIsOk (convert_csv_to_parquet w f p opts).1
  | .error _ => false

/-- Concrete world in which every external call fails, used to exercise
the error paths at concrete inputs. -/
def wFail : World :=
  { tryIntoReader := fun _ _ => .error "no such file"
    readerFinish := fun _ _ => .error "read failed"
    fileCreate := fun _ => .error "permission denied"
    levels :=
      { gzip_try_new := fun _ => .error "bad gzip level"
        zstd_try_new := fun _ => .error "bad zstd level"
        brotli_try_new := fun _ => .error "bad brotli level" }
    parquetFinish := fun _ _ => .error "write failed" }

/-- Concrete world in which every external call succeeds: the reader
yields a 5-row dataframe and the writer reports 77 bytes written. -/
def wOk : World :=
  { tryIntoReader := fun _ _ => .ok ()
    readerFinish := fun _ _ => .ok ⟨5, 0⟩
    fileCreate := fun _ => .ok ⟨1⟩
    levels :=
      { gzip_try_new := fun n => .ok ⟨n⟩
        zstd_try_new := fun n => .ok ⟨n⟩
        brotli_try_new := fun n => .ok ⟨n⟩ }
    parquetFinish := fun _ _ => .ok 77 }

/-- Concrete relative path `a.csv`. -/
def pA : Path := ⟨false, [Component.normal "a.csv"]⟩

/-- Concrete relative path `b.csv`. -/
def pB : Path := ⟨false, [Component.normal "b.csv"]⟩

/-- Concrete path `..`, which has no file name and hence no file stem. -/
def pBad : Path := ⟨false, [Component.parentDir]⟩

/-- Concrete relative path `d/data.parquet`. -/
def pStem : Path := ⟨false, [Component.normal "d", Component.normal "data.parquet"]⟩

/-- Concrete CLI invocation with two well-formed input files and every
flag at its clap default. -/
def cliGood : Cli :=
  { input_files := [pA, pB]
    output_dir := none
    compression := CompressionType.zstd
    compression_level := none
    has_header := true
    delimiter := ","
    quote_char := "\""
    infer_schema_rows := 1000
    row_group_size := 500000
    threads := 0
    low_memory := false
    no_statistics := false
    no_parallel := false }

/-- Concrete CLI invocation whose FIRST input file (`..`) has no file
stem, followed by a perfectly good second input file. -/
def cliBad : Cli :=
  { cliGood with input_files := [pBad, pA] }

/-- The `ConversionOptions` value that `build_conversion_options` produces
for the default flags of `cliGood`/`cliBad`. -/
def optsBuilt : ConversionOptions :=
  { has_header := true
    delimiter := 44
    quote_char := some 34
    infer_schema_rows := some 1000
    compression := Compression.zstd none
    row_group_size := some 500000
    n_threads := none
    low_memory := false
    statistics := true
    parallel := true }

/-! Theorems. -/

/-- Evaluation of `Char.ofNat` on a small valid code point. -/
theorem charOfNat_toNat (n : Nat) (h1 : n ≤ 122) : (Char.ofNat n).toNat = n := by
  have hv : n.isValidChar := Or.inl (by omega)
  simp [Char.ofNat, hv, Char.ofNatAux, Char.toNat, UInt32.toNat, BitVec.toNat_ofNatLt]

/-- Nothing lowercases (in ASCII) to a character below the lowercase
letters except that character itself. -/
theorem asciiToLower_eq_self_of_lt (c t : Char) (ht : t.toNat < 97)
    (h : asciiToLower c = t) : c = t := by
  by_cases hc : 65 ≤ c.toNat ∧ c.toNat ≤ 90
  · exfalso
    rw [asciiToLower, if_pos hc] at h
    have h2 := congrArg Char.toNat h
    rw [charOfNat_toNat (c.toNat + 32) (by omega)] at h2
    omega
  · rwa [asciiToLower, if_neg hc] at h

/-- A list whose image is a singleton is a singleton. -/
theorem map_eq_singleton {α β : Type} (f : α → β) (l : List α) (c : β)
    (h : l.map f = [c]) : ∃ d, l = [d] ∧ f d = c := by
  cases l with
  | nil => simp at h
  | cons a t =>
    cases t with
    | nil => simp_all
    | cons b t2 => simp at h

/-- Lowercasing yields the empty string only on the empty string. -/
theorem toLowerString_empty_iff (s : String) : toLowerString s = "" ↔ s = "" := by
  cases s with
  | mk l =>
    cases l with
    | nil => simp [toLowerString]
    | cons a t =>
      constructor
      · intro h
        exact absurd (congrArg String.data h) (by simp [toLowerString])
      · intro h
        exact absurd (congrArg String.data h) (by simp)

/-- A string that lowercases to a single non-letter character is that
one-character string itself. -/
theorem toLowerString_single (s : String) (c : Char) (hc : c.toNat < 97)
    (h : toLowerString s = ⟨[c]⟩) : s = ⟨[c]⟩ := by
  have h2 : s.data.map asciiToLower = [c] := by
    have := congrArg String.data h
    simpa [toLowerString] using this
  obtain ⟨d, hd, hdc⟩ := map_eq_singleton _ _ _ h2
  have := asciiToLower_eq_self_of_lt d c hc hdc
  cases s
  simp_all

/-- C9: `parse_delimiter` succeeds exactly on `","`, `";"`, `"|"`, the
two-character escape `"\\t"`, a literal tab, or any string of UTF-8 byte
length exactly 1 (so a single multi-byte character is rejected), and
`parse_quote_char` returns `Ok(None)` exactly for a case-insensitive
`none` or the empty string, `Ok(Some b)` for any single-byte string with
byte `b`, and an error for every other string. -/
theorem delimiter_quote_parsing : ∀ s : String,
    (exceptIsOk (parse_delimiter s) = true ↔
      (s = "," ∨ s = ";" ∨ s = "|" ∨ s = "\\t" ∨ s = "\t" ∨ utf8ByteLen s = 1)) ∧
    parse_quote_char s =
      (if toLowerString s = "none" ∨ s = "" then Except.ok none
       else if utf8ByteLen s = 1 then Except.ok (some (headByteD s))
       else Except.error "Quote character must be a single character or \x27none\x27") := by
  intro s
  have hemp := toLowerString_empty_iff s
  constructor
  · unfold parse_delimiter
    split_ifs <;> simp_all [exceptIsOk]
    tauto
  · by_cases hn : toLowerString s = "none" ∨ toLowerString s = ""
    · simp only [parse_quote_char]
      rw [if_pos hn, if_pos (hn.imp id hemp.mp)]
    · have hn' : ¬(toLowerString s = "none" ∨ s = "") := fun h => hn (h.imp id hemp.mpr)
      by_cases hq : toLowerString s = "\""
      · have hs : s = "\"" := toLowerString_single s '"' (by decide) hq
        subst hs; decide
      · by_cases ha : toLowerString s = "\x27"
        · have hs : s = "\x27" := toLowerString_single s '\x27' (by decide) ha
          subst hs; decide
        · by_cases hl : utf8ByteLen s = 1
          · simp only [parse_quote_char]
            rw [if_neg hn, if_neg hq, if_neg ha, if_pos hl, if_neg hn']
          · simp only [parse_quote_char]
            rw [if_neg hn, if_neg hq, if_neg ha, if_neg hl, if_neg hn']

theorem compression_translation_levels (lv : LevelOracles) :
    Compression.uncompressed.to_parquet_compression lv = .ok .uncompressed ∧
    Compression.snappy.to_parquet_compression lv = .ok .snappy ∧
    Compression.lz4.to_parquet_compression lv = .ok .lz4Raw ∧
    (Compression.gzip none).to_parquet_compression lv = .ok (.gzip none) ∧
    (Compression.zstd none).to_parquet_compression lv = .ok (.zstd none) ∧
    (Compression.brotli none).to_parquet_compression lv = .ok (.brotli none) ∧
    (∀ l, (Compression.gzip (some l)).to_parquet_compression lv =
      (match lv.gzip_try_new l with
       | .ok gl => .ok (.gzip (some gl))
       | .error e => .error (.invalidCompressionLevel e))) ∧
    (∀ l, (Compression.zstd (some l)).to_parquet_compression lv =
      (match lv.zstd_try_new l with
       | .ok zl => .ok (.zstd (some zl))
       | .error e => .error (.invalidCompressionLevel e))) ∧
    (∀ l, (Compression.brotli (some l)).to_parquet_compression lv =
      (match lv.brotli_try_new l with
       | .ok bl => .ok (.brotli (some bl))
       | .error e => .error (.invalidCompressionLevel e))) := by
  refine ⟨rfl, rfl, rfl, rfl, rfl, rfl, ?_, ?_, ?_⟩ <;> intro l <;> rfl

theorem read_csv_trace (w : World) (path : Path) (options : ConversionOptions) :
    (read_csv w path options).2 = [Event.csvReadAttempt (read_csv_options options) path] := by
  simp only [read_csv]
  split
  · rfl
  · split <;> rfl

theorem read_csv_reader_config (w : World) (path : Path) (options : ConversionOptions) :
    (read_csv_options options).has_header = options.has_header ∧
    (read_csv_options options).infer_schema_length = options.infer_schema_rows ∧
    (read_csv_options options).parse_options.separator = options.delimiter ∧
    (read_csv_options options).parse_options.quote_char = options.quote_char ∧
    (read_csv_options options).n_threads = options.n_threads ∧
    (read_csv_options options).low_memory = options.low_memory ∧
    (read_csv w path options).2 = [Event.csvReadAttempt (read_csv_options options) path] := by
  refine ⟨?_, ?_, ?_, ?_, ?_, ?_, read_csv_trace w path options⟩ <;>
    rcases options with ⟨hh, d, q, i, c, r, nt, lm, st, par⟩ <;>
    cases q <;> cases nt <;>
    simp [read_csv_options, CsvReadOptions.defaultOptions, CsvParseOptions.defaultOptions,
      CsvReadOptions.with_has_header, CsvReadOptions.with_infer_schema_length,
      CsvReadOptions.map_parse_options, CsvReadOptions.with_n_threads,
      CsvReadOptions.with_low_memory, CsvParseOptions.with_separator,
      CsvParseOptions.with_quote_char]

theorem write_parquet_trace (w : World) (df : DataFrame) (path : Path)
    (options : ConversionOptions) :
    (write_parquet w df path options).2 = [Event.fileCreateEv path] ∨
    ∃ writer, (write_parquet w df path options).2 =
      [Event.fileCreateEv path, Event.parquetFinishEv writer df] := by
  simp only [write_parquet]
  split
  · exact Or.inl rfl
  · split
    · exact Or.inl rfl
    · split <;> exact Or.inr ⟨_, rfl⟩

theorem write_parquet_writer_config (w : World) (df : DataFrame) (path : Path)
    (options : ConversionOptions) (file : FileHandle) (compression : ParquetCompression)
    (hf : w.fileCreate path = .ok file)
    (hc : options.compression.to_parquet_compression w.levels = .ok compression) :
    ∃ writer,
      (write_parquet w df path options).2 =
        [Event.fileCreateEv path, Event.parquetFinishEv writer df] ∧
      writer.compression = compression ∧
      writer.statistics =
        (if options.statistics then StatisticsOptions.full else StatisticsOptions.empty) ∧
      writer.parallel = options.parallel ∧
      writer.row_group_size = options.row_group_size := by
  simp only [write_parquet, hf, hc]
  cases hrg : options.row_group_size with
  | none =>
    exact ⟨(((ParquetWriter.new file).with_compression compression).with_statistics
        (if options.statistics then StatisticsOptions.full else StatisticsOptions.empty)).set_parallel
        options.parallel,
      by split <;> rfl, rfl, rfl, rfl, rfl⟩
  | some n =>
    exact ⟨((((ParquetWriter.new file).with_compression compression).with_statistics
        (if options.statistics then StatisticsOptions.full else StatisticsOptions.empty)).set_parallel
        options.parallel).with_row_group_size (some n),
      by split <;> rfl, rfl, rfl, rfl, rfl⟩

theorem convert_of_read_error (w : World) (input output : Path) (options : ConversionOptions)
    (e : ConversionError) (hr : (read_csv w input options).1 = .error e) :
    convert_csv_to_parquet w input output options = (.error e, (read_csv w input options).2) := by
  rcases hE : read_csv w input options with ⟨r, tr⟩
  rw [hE] at hr
  simp only at hr
  subst hr
  simp [convert_csv_to_parquet, hE]

theorem convert_of_read_ok (w : World) (input output : Path) (options : ConversionOptions)
    (df : DataFrame) (hr : (read_csv w input options).1 = .ok df) :
    convert_csv_to_parquet w input output options =
      (Except.map (fun n => { rows_processed := df.height, output_size := n })
        (write_parquet w df output options).1,
       (read_csv w input options).2 ++ (write_parquet w df output options).2) := by
  rcases hE : read_csv w input options with ⟨r, tr⟩
  rw [hE] at hr
  simp only at hr
  subst hr
  rcases hW : write_parquet w df output options with ⟨r2, tr2⟩
  cases r2 <;> simp [convert_csv_to_parquet, hE, hW, Except.map]

theorem read_csv_error_shape (w : World) (path : Path) (options : ConversionOptions)
    (e : ConversionError) (hr : (read_csv w path options).1 = .error e) :
    ∃ s, e = ConversionError.csvRead s := by
  revert hr
  simp only [read_csv]
  split
  · intro h
    simp only at h
    exact ⟨_, (Except.error.inj h).symm⟩
  · split
    · intro h
      simp only at h
      exact ⟨_, (Except.error.inj h).symm⟩
    · intro h
      simp at h

theorem convertAttempts_convert (w : World) (input output : Path)
    (options : ConversionOptions) :
    convertAttempts (convert_csv_to_parquet w input output options).2 = [input] := by
  cases hr : (read_csv w input options).1 with
  | error e =>
    have h2 := congrArg Prod.snd (convert_of_read_error w input output options e hr)
    simp only at h2
    rw [h2, read_csv_trace]
    rfl
  | ok df =>
    have h2 := congrArg Prod.snd (convert_of_read_ok w input output options df hr)
    simp only at h2
    rw [h2, read_csv_trace]
    rcases write_parquet_trace w df output options with h | ⟨wr, h⟩ <;>
      rw [h] <;> rfl

theorem not_summary_in_convert (w : World) (input output : Path)
    (options : ConversionOptions) (a b c : Nat) :
    Event.printSummary a b c ∉ (convert_csv_to_parquet w input output options).2 := by
  cases hr : (read_csv w input options).1 with
  | error e =>
    have h2 := congrArg Prod.snd (convert_of_read_error w input output options e hr)
    simp only at h2
    rw [h2, read_csv_trace]
    simp
  | ok df =>
    have h2 := congrArg Prod.snd (convert_of_read_ok w input output options df hr)
    simp only at h2
    rw [h2, read_csv_trace]
    rcases write_parquet_trace w df output options with h | ⟨wr, h⟩ <;>
      rw [h] <;> simp

/-- C1: `convert_csv_to_parquet` first reads the CSV, then writes exactly
the dataframe it read, and on success returns stats whose `rows_processed`
is the height of that dataframe and whose `output_size` is the byte count
reported by the Parquet writer. -/
theorem convert_reads_then_writes (w : World) (input output : Path)
    (options : ConversionOptions) (df : DataFrame)
    (hr : (read_csv w input options).1 = .ok df) :
    (convert_csv_to_parquet w input output options).1 =
      Except.map (fun n => { rows_processed := df.height, output_size := n })
        (write_parquet w df output options).1 ∧
    (convert_csv_to_parquet w input output options).2 =
      (read_csv w input options).2 ++ (write_parquet w df output options).2 := by
  rw [convert_of_read_ok w input output options df hr]
  exact ⟨rfl, rfl⟩

/-- Witness for C1 at a concrete world where the reader yields a 5-row
dataframe and the writer reports 77 bytes. -/
theorem convert_reads_then_writes_witness :
    (convert_csv_to_parquet wOk pA pB optsBuilt).1 =
      Except.map (fun n => { rows_processed := DataFrame.height ⟨5, 0⟩, output_size := n })
        (write_parquet wOk ⟨5, 0⟩ pB optsBuilt).1 ∧
    (convert_csv_to_parquet wOk pA pB optsBuilt).2 =
      (read_csv wOk pA optsBuilt).2 ++ (write_parquet wOk ⟨5, 0⟩ pB optsBuilt).2 :=
  convert_reads_then_writes wOk pA pB optsBuilt ⟨5, 0⟩ rfl

/-- C8: when reading the input CSV fails, `convert_csv_to_parquet` returns
a `CsvRead` error and no `File::create` of the output path (or of any
path) ever happens. -/
theorem read_failure_no_output_file (w : World) (input output : Path)
    (options : ConversionOptions) (e : ConversionError)
    (hr : (read_csv w input options).1 = .error e) :
    (∃ s, e = ConversionError.csvRead s) ∧
    (convert_csv_to_parquet w input output options).1 = .error e ∧
    ∀ p, Event.fileCreateEv p ∉ (convert_csv_to_parquet w input output options).2 := by
  refine ⟨read_csv_error_shape w input options e hr, ?_, ?_⟩
  · rw [convert_of_read_error w input output options e hr]
  · intro p
    have h2 := congrArg Prod.snd (convert_of_read_error w input output options e hr)
    simp only at h2
    rw [h2, read_csv_trace]
    simp

/-- Witness for C8 at a concrete world where the reader construction
fails. -/
theorem read_failure_no_output_file_witness :
    (∃ s, ConversionError.csvRead "no such file" = ConversionError.csvRead s) ∧
    (convert_csv_to_parquet wFail pA pB optsBuilt).1 =
      .error (ConversionError.csvRead "no such file") ∧
    ∀ p, Event.fileCreateEv p ∉ (convert_csv_to_parquet wFail pA pB optsBuilt).2 :=
  read_failure_no_output_file wFail pA pB optsBuilt (ConversionError.csvRead "no such file") rfl

/-- C7: `write_parquet` hands the external writer a configuration with the
translated compression, full statistics exactly when `options.statistics`
is set (empty otherwise), the configured parallelism, and a row-group size
equal to `options.row_group_size` (the writer's default `None` is kept
when no size is configured). -/
theorem write_parquet_configures_writer (w : World) (df : DataFrame) (path : Path)
    (options : ConversionOptions) (file : FileHandle) (compression : ParquetCompression)
    (hf : w.fileCreate path = .ok file)
    (hc : options.compression.to_parquet_compression w.levels = .ok compression) :
    ∃ writer,
      (write_parquet w df path options).2 =
        [Event.fileCreateEv path, Event.parquetFinishEv writer df] ∧
      writer.compression = compression ∧
      writer.statistics =
        (if options.statistics then StatisticsOptions.full else StatisticsOptions.empty) ∧
      writer.parallel = options.parallel ∧
      writer.row_group_size = options.row_group_size :=
  write_parquet_writer_config w df path options file compression hf hc

/-- Witness for C7 at a concrete succeeding world. -/
theorem write_parquet_configures_writer_witness :
    ∃ writer,
      (write_parquet wOk ⟨5, 0⟩ pB optsBuilt).2 =
        [Event.fileCreateEv pB, Event.parquetFinishEv writer ⟨5, 0⟩] ∧
      writer.compression = ParquetCompression.zstd none ∧
      writer.statistics =
        (if optsBuilt.statistics then StatisticsOptions.full else StatisticsOptions.empty) ∧
      writer.parallel = optsBuilt.parallel ∧
      writer.row_group_size = optsBuilt.row_group_size :=
  write_parquet_configures_writer wOk ⟨5, 0⟩ pB optsBuilt ⟨1⟩
    (ParquetCompression.zstd none) rfl rfl

/-- C4: every field of the options built from an accepted CLI argument set
is the direct translation of its flag. -/
theorem build_options_translates_flags (cli : Cli) (d : Nat) (q : Option Nat)
    (opts : ConversionOptions)
    (hd : parse_delimiter cli.delimiter = .ok d)
    (hq : parse_quote_char cli.quote_char = .ok q)
    (hb : build_conversion_options cli = .ok opts) :
    opts.has_header = cli.has_header ∧
    opts.low_memory = cli.low_memory ∧
    opts.delimiter = d ∧
    opts.quote_char = q ∧
    opts.compression = cli.compression.to_compression cli.compression_level ∧
    opts.row_group_size = some cli.row_group_size ∧
    opts.statistics = !cli.no_statistics ∧
    opts.parallel = !cli.no_parallel ∧
    opts.infer_schema_rows =
      (if cli.infer_schema_rows = 0 then none else some cli.infer_schema_rows) ∧
    opts.n_threads = (if cli.threads = 0 then none else some cli.threads) := by
  rw [build_conversion_options, hd, hq] at hb
  simp only [withContext] at hb
  obtain rfl := Except.ok.inj hb
  exact ⟨rfl, rfl, rfl, rfl, rfl, rfl, rfl, rfl, rfl, rfl⟩

/-- Witness for C4 at the concrete default CLI invocation. -/
theorem build_options_translates_flags_witness :
    optsBuilt.has_header = cliGood.has_header ∧
    optsBuilt.low_memory = cliGood.low_memory ∧
    optsBuilt.delimiter = 44 ∧
    optsBuilt.quote_char = some 34 ∧
    optsBuilt.compression = cliGood.compression.to_compression cliGood.compression_level ∧
    optsBuilt.row_group_size = some cliGood.row_group_size ∧
    optsBuilt.statistics = !cliGood.no_statistics ∧
    optsBuilt.parallel = !cliGood.no_parallel ∧
    optsBuilt.infer_schema_rows =
      (if cliGood.infer_schema_rows = 0 then none else some cliGood.infer_schema_rows) ∧
    optsBuilt.n_threads = (if cliGood.threads = 0 then none else some cliGood.threads) :=
  build_options_translates_flags cliGood 44 (some 34) optsBuilt (by decide) (by decide)
    (by decide)

/-- Splitting a character list at its last dot recovers the list. -/
theorem splitAtLastDot_eq (cs : List Char) :
    ∀ pre post, splitAtLastDot cs = some (pre, post) → cs = pre ++ '.' :: post := by
  induction cs with
  | nil => intro pre post h; simp [splitAtLastDot] at h
  | cons c rest ih =>
    intro pre post h
    rw [splitAtLastDot] at h
    cases hr : splitAtLastDot rest with
    | some pp =>
      rcases pp with ⟨pre2, post2⟩
      rw [hr] at h
      simp only [Option.some.injEq, Prod.mk.injEq] at h
      obtain ⟨h1, h2⟩ := h
      subst h2
      rw [← h1]
      simp [ih pre2 post2 hr]
    | none =>
      rw [hr] at h
      simp only at h
      split at h
      · rename_i hc
        simp only [Option.some.injEq, Prod.mk.injEq] at h
        obtain ⟨h1, h2⟩ := h
        subst h1
        subst h2
        simp [hc]
      · simp at h

/-- On a file name with extension `e`, the stem, a dot and `e` reassemble
the file name. -/
theorem stem_extension_recompose (name e : String)
    (h : extensionStr name = some e) : fileStemStr name ++ "." ++ e = name := by
  obtain ⟨l⟩ := name
  obtain ⟨le⟩ := e
  rcases hl : l with _ | ⟨c0, rest⟩
  · subst hl; simp [extensionStr] at h
  · subst hl
    rcases hs : splitAtLastDot rest with _ | ⟨pre, post⟩
    · simp only [extensionStr, hs] at h
      exact Option.noConfusion h
    · have hre := splitAtLastDot_eq rest pre post hs
      simp only [extensionStr, hs, Option.some.injEq] at h
      have hpost : post = le := congrArg String.data h
      simp only [fileStemStr, hs]
      apply String.ext
      simp only [String.data_append]
      rw [hre, hpost]
      simp



/-- String append reassociation for the `.parquet` suffix. -/
theorem append_dot_parquet (a : String) : a ++ ".parquet" = a ++ "." ++ "parquet" := by
  apply String.ext
  simp [String.data_append]

/-- C10: `determine_output_path` errors exactly when the input has no file
stem; otherwise it joins `<stem>.parquet` to the explicit output directory
when given, else to the input's parent directory, else uses the bare file
name; and an input already named `<stem>.parquet` with no output directory
maps to itself. -/
theorem output_path_determination (input : Path) (output_dir : Option Path) :
    (input.fileName = none →
      determine_output_path input output_dir = .error "Invalid input filename") ∧
    (∀ name, input.fileName = some name →
      determine_output_path input output_dir = .ok
        (match output_dir with
         | some dir => dir.join (fileStemStr name ++ ".parquet")
         | none =>
           match input.parent with
           | some parent => parent.join (fileStemStr name ++ ".parquet")
           | none => ⟨false, [Component.normal (fileStemStr name ++ ".parquet")]⟩)) ∧
    (∀ name, input.fileName = some name → extensionStr name = some "parquet" →
      output_dir = none → determine_output_path input output_dir = .ok input) := by
  refine ⟨?_, ?_, ?_⟩
  · intro h
    simp only [determine_output_path, h]
  · intro name h
    simp only [determine_output_path, h]
  · intro name h hext hod
    subst hod
    have hname : fileStemStr name ++ ".parquet" = name := by
      rw [append_dot_parquet]
      exact stem_extension_recompose name "parquet" hext
    have hcomps : input.comps.getLast? = some (Component.normal name) := by
      revert h
      rw [Path.fileName]
      cases hg : input.comps.getLast? with
      | none => intro h; exact Option.noConfusion h
      | some c =>
        cases c with
        | normal s =>
          intro h
          simp only [Option.some.injEq] at h
          rw [h]
        | parentDir => intro h; exact Option.noConfusion h
    obtain ⟨abs, comps⟩ := input
    cases comps with
    | nil => exact absurd hcomps (by simp)
    | cons c cs =>
      simp only [determine_output_path, h, Path.parent, Path.join, hname]
      simp only [Except.ok.injEq, Path.mk.injEq, true_and]
      exact List.dropLast_append_getLast? _ hcomps



/-- Witness for C10: the input `d/data.parquet` with no output directory
maps to itself. -/
theorem output_path_determination_witness :
    determine_output_path pStem none = .ok pStem :=
  (output_path_determination pStem none).2.2 "data.parquet" rfl (by decide) rfl

/-- Every file with a determinable output path contributes exactly one
conversion attempt, in order, whatever the conversion outcomes are. -/
theorem processFiles_attempts (w : World) (opts : ConversionOptions) (odir : Option Path) :
    ∀ (files : List Path) (st : LoopState),
      (∀ f ∈ files, exceptIsOk (determine_output_path f odir) = true) →
      convertAttempts (processFiles w opts odir files st).2 = files := by
  intro files
  induction files with
  | nil => intro st hd; rfl
  | cons f rest ih =>
    intro st hd
    have hf := hd f (by simp)
    cases hdet : determine_output_path f odir with
    | error msg => rw [hdet] at hf; simp [exceptIsOk] at hf
    | ok p =>
      have htr : convertAttempts (convert_csv_to_parquet w f p opts).2 = [f] :=
        convertAttempts_convert w f p opts
      rcases hc : convert_csv_to_parquet w f p opts with ⟨r, tr⟩
      rw [hc] at htr
      simp only at htr
      have hrest : ∀ g ∈ rest, exceptIsOk (determine_output_path g odir) = true :=
        fun g hg => hd g (by simp [hg])
      cases r with
      | ok stats =>
        have ihh := ih ⟨st.total + 1, st.successful + 1, st.failed⟩ hrest
        simp only [convertAttempts] at htr ihh
        simp [processFiles, hdet, hc, convertAttempts, List.filterMap_append, htr, ihh]
      | error e =>
        have ihh := ih ⟨st.total + 1, st.successful, st.failed + 1⟩ hrest
        simp only [convertAttempts] at htr ihh
        simp [processFiles, hdet, hc, convertAttempts, List.filterMap_append, htr, ihh]



/-- When every output path is determinable, the loop completes and the
final counters are the initial ones plus the files processed, split into
succeeded and failed conversions. -/
theorem processFiles_counts (w : World) (opts : ConversionOptions) (odir : Option Path) :
    ∀ (files : List Path) (st : LoopState),
      (∀ f ∈ files, exceptIsOk (determine_output_path f odir) = true) →
      (processFiles w opts odir files st).1 = .ok
        ⟨st.total + files.length,
         st.successful + files.countP (convOk w opts odir),
         st.failed + files.countP (fun f => !(convOk w opts odir f))⟩ := by
  intro files
  induction files with
  | nil => intro st hd; simp [processFiles]
  | cons f rest ih =>
    intro st hd
    have hf := hd f (by simp)
    cases hdet : determine_output_path f odir with
    | error msg => rw [hdet] at hf; simp [exceptIsOk] at hf
    | ok p =>
      rcases hc : convert_csv_to_parquet w f p opts with ⟨r, tr⟩
      have hok : convOk w opts odir f = exceptIsOk r := by
        simp [convOk, hdet, hc]
      have hrest : ∀ g ∈ rest, exceptIsOk (determine_output_path g odir) = true :=
        fun g hg => hd g (by simp [hg])
      cases r with
      | ok stats =>
        have ihh := ih ⟨st.total + 1, st.successful + 1, st.failed⟩ hrest
        simp only [exceptIsOk] at hok
        simp [processFiles, hdet, hc, ihh, List.countP_cons, hok, LoopState.mk.injEq]
        omega
      | error e =>
        have ihh := ih ⟨st.total + 1, st.successful, st.failed + 1⟩ hrest
        simp only [exceptIsOk] at hok
        simp [processFiles, hdet, hc, ihh, List.countP_cons, hok, LoopState.mk.injEq]
        omega

/-- No event of the per-file loop is a summary line. -/
theorem processFiles_no_summary (w : World) (opts : ConversionOptions) (odir : Option Path) :
    ∀ (files : List Path) (st : LoopState) (a b c : Nat),
      Event.printSummary a b c ∉ (processFiles w opts odir files st).2 := by
  intro files
  induction files with
  | nil => intro st a b c; simp [processFiles]
  | cons f rest ih =>
    intro st a b c
    cases hdet : determine_output_path f odir with
    | error msg => simp [processFiles, hdet]
    | ok p =>
      have hnc := not_summary_in_convert w f p opts a b c
      rcases hc : convert_csv_to_parquet w f p opts with ⟨r, tr⟩
      rw [hc] at hnc
      simp only at hnc
      cases r with
      | ok stats =>
        have ihh := ih ⟨st.total + 1, st.successful + 1, st.failed⟩ a b c
        simp [processFiles, hdet, hc]
        exact ⟨hnc, ihh⟩
      | error e =>
        have ihh := ih ⟨st.total + 1, st.successful, st.failed + 1⟩ a b c
        simp [processFiles, hdet, hc]
        exact ⟨hnc, ihh⟩



/-- C2 counterexample: with input files `[.., a.csv]` (both given, the
first having no file stem), the driver attempts no conversion at all — in
particular `a.csv`, although given, is never attempted, contradicting
"exactly one conversion per input file". -/
theorem driver_attempts_counterexample :
    cliBad.input_files.length = 2 ∧
    convertAttempts (mainModel wFail cliBad).2 = [] := by
  constructor
  · rfl
  · decide

/-- C2 (amended): provided the option translation succeeds and every input
file's output path is determinable, the driver attempts exactly one
conversion per input file, in the order given, and no conversion outcome
prevents the remaining files from being attempted (the world `w`, and
hence each conversion's outcome, is arbitrary). -/
theorem driver_attempts_all_files (w : World) (cli : Cli) (opts : ConversionOptions)
    (hb : build_conversion_options cli = .ok opts)
    (hd : ∀ f ∈ cli.input_files, exceptIsOk (determine_output_path f cli.output_dir) = true) :
    convertAttempts (mainModel w cli).2 = cli.input_files := by
  have hatt := processFiles_attempts w opts cli.output_dir cli.input_files ⟨0, 0, 0⟩ hd
  have hcounts := processFiles_counts w opts cli.output_dir cli.input_files ⟨0, 0, 0⟩ hd
  rcases hp : processFiles w opts cli.output_dir cli.input_files ⟨0, 0, 0⟩ with ⟨r, tr⟩
  rw [hp] at hatt hcounts
  simp only at hatt hcounts
  subst hcounts
  simp only [mainModel, hb, hp]
  split_ifs <;> simp [convertAttempts, List.filterMap_append, hatt] <;>
    simpa [convertAttempts] using hatt

/-- Witness for the amended C2 at a concrete two-file invocation in a
world where every conversion fails (both files are still attempted). -/
theorem driver_attempts_all_files_witness :
    convertAttempts (mainModel wFail cliGood).2 = cliGood.input_files :=
  driver_attempts_all_files wFail cliGood optsBuilt (by decide) (by decide)



/-- C3: once the driver has processed every input file (options built,
every output path determinable), the counters satisfy
`successful + failed = total` with `total` the number of input files and
`failed` the number of failing conversions; the process takes the
`exit(1)` path exactly when at least one conversion failed, returns
`Ok(())` (exit status 0) exactly when every conversion succeeded, and a
summary line is printed exactly when more than one input file was given. -/
theorem driver_aggregation_and_exit (w : World) (cli : Cli) (opts : ConversionOptions)
    (hb : build_conversion_options cli = .ok opts)
    (hd : ∀ f ∈ cli.input_files, exceptIsOk (determine_output_path f cli.output_dir) = true) :
    ∃ st : LoopState,
      (processFiles w opts cli.output_dir cli.input_files ⟨0, 0, 0⟩).1 = .ok st ∧
      st.successful + st.failed = st.total ∧
      st.total = cli.input_files.length ∧
      (0 < st.failed ↔ ∃ f ∈ cli.input_files, convOk w opts cli.output_dir f = false) ∧
      ((mainModel w cli).1 = .exit1 ↔ 0 < st.failed) ∧
      ((mainModel w cli).1 = .okUnit ↔ st.failed = 0) ∧
      ((∃ a b c, Event.printSummary a b c ∈ (mainModel w cli).2) ↔
        1 < cli.input_files.length) := by
  have hcounts := processFiles_counts w opts cli.output_dir cli.input_files ⟨0, 0, 0⟩ hd
  have hnosum := processFiles_no_summary w opts cli.output_dir cli.input_files ⟨0, 0, 0⟩
  rcases hp : processFiles w opts cli.output_dir cli.input_files ⟨0, 0, 0⟩ with ⟨r, tr⟩
  rw [hp] at hcounts
  simp only at hcounts
  subst hcounts
  simp only [Nat.zero_add] at hp
  have hnosum2 : ∀ a b c, Event.printSummary a b c ∉ tr := by
    intro a b c
    have := hnosum a b c
    rw [hp] at this
    exact this
  have hsplit : cli.input_files.countP (convOk w opts cli.output_dir) +
      cli.input_files.countP (fun f => !(convOk w opts cli.output_dir f)) =
      cli.input_files.length := by
    rw [Nat.add_comm,
      List.length_eq_countP_add_countP (fun f => !(convOk w opts cli.output_dir f))]
    congr 1
    apply List.countP_congr
    intro f hf
    simp
  have hmain : mainModel w cli =
      (if 0 < cli.input_files.countP (fun f => !(convOk w opts cli.output_dir f))
         then MainResult.exit1 else MainResult.okUnit,
       if 1 < cli.input_files.length
         then tr ++ [Event.printSummary
           (cli.input_files.countP (convOk w opts cli.output_dir))
           (cli.input_files.countP (fun f => !(convOk w opts cli.output_dir f)))
           cli.input_files.length]
         else tr) := by
    simp only [mainModel, hb, hp]
    split_ifs <;> rfl
  refine ⟨⟨cli.input_files.length,
    cli.input_files.countP (convOk w opts cli.output_dir),
    cli.input_files.countP (fun f => !(convOk w opts cli.output_dir f))⟩,
    (by simp), hsplit, rfl, ?_, ?_, ?_, ?_⟩
  · simp only
    rw [List.countP_pos_iff]
    simp
  · rw [hmain]
    simp only
    split_ifs with hpos
    · exact iff_of_true rfl hpos
    · exact iff_of_false (by simp) hpos
  · rw [hmain]
    simp only
    split_ifs with hpos
    · exact iff_of_false (by simp) (by omega)
    · exact iff_of_true rfl (by omega)
  · rw [hmain]
    simp only
    split_ifs with hlen
    · refine iff_of_true ⟨cli.input_files.countP (convOk w opts cli.output_dir),
        cli.input_files.countP (fun f => !(convOk w opts cli.output_dir f)),
        cli.input_files.length, ?_⟩ hlen
      simp
    · refine iff_of_false ?_ hlen
      rintro ⟨a, b, c, hm⟩
      exact hnosum2 a b c hm



/-- Witness for C3 at a concrete two-file invocation in a world where
every conversion fails: the driver counts 0 successes and 2 failures out
of 2 and takes the exit(1) path, printing the summary. -/
theorem driver_aggregation_and_exit_witness :
    ∃ st : LoopState,
      (processFiles wFail optsBuilt cliGood.output_dir cliGood.input_files ⟨0, 0, 0⟩).1 =
        .ok st ∧
      st.successful + st.failed = st.total ∧
      st.total = cliGood.input_files.length ∧
      (0 < st.failed ↔
        ∃ f ∈ cliGood.input_files, convOk wFail optsBuilt cliGood.output_dir f = false) ∧
      ((mainModel wFail cliGood).1 = .exit1 ↔ 0 < st.failed) ∧
      ((mainModel wFail cliGood).1 = .okUnit ↔ st.failed = 0) ∧
      ((∃ a b c, Event.printSummary a b c ∈ (mainModel wFail cliGood).2) ↔
        1 < cliGood.input_files.length) :=
  driver_aggregation_and_exit wFail cliGood optsBuilt (by decide) (by decide)

end CsvToParquet
